import Mathlib

/-!
# Dot game: shallow embedding and verification

The repository contains several near-duplicate variants of a falling-dot
reaction game (an early variant in `part_001`, a pixel-coordinate variant at
the top of `index.js` and in `part_000`, and a percentage-coordinate variant
at the bottom of `index.js`).  This file embeds the arithmetic core of those
variants — spawning, per-tick motion, expiry, hit scanning and scoring — as
executable Lean functions over `ℚ` (JavaScript numbers idealised as exact
rationals), and proves the behavioural properties stated about them.

Platform functions used by the source are modelled explicitly:
`Math.floor`/`Math.round` via `Int.floor`, `Math.random` as a parameter
`u` with `0 ≤ u < 1`, and `parseInt(·, 10)` as an `Option ℤ` parser where
`none` models the `NaN` result on non-numeric input.
-/

set_option autoImplicit false

namespace DotGame

/-- A dot: radius `r`, horizontal position `x` (absolute pixels in the early
variants, a percentage of usable width in the final variant), and vertical
position `y` in pixels.  Mirrors the object literal `{r, x, y}` built by
`addDot_`. -/
structure Dot where
  r : ℚ
  x : ℚ
  y : ℚ
deriving DecidableEq, Repr

/-- `options_.FRAMES_PER_SECOND` (60 in the variants under test). -/
def FRAMES_PER_SECOND : ℚ := 60

/-- `options_.MIN_DOT_DIAMETER`. -/
def MIN_DOT_DIAMETER : ℚ := 10

/-- `options_.MAX_DOT_DIAMETER`. -/
def MAX_DOT_DIAMETER : ℚ := 100

/-- `options_.STROKE_WIDTH`. -/
def STROKE_WIDTH : ℚ := 1

/-- `options_.BOARD_INNER_PADDING`. -/
def BOARD_INNER_PADDING : ℚ := 5

/-- JavaScript `Math.round`: round to nearest, ties toward `+∞`,
i.e. `⌊q + 1/2⌋`. -/
def jsRound (q : ℚ) : ℤ := ⌊q + 1 / 2⌋

/-- `calculateDotScore(radius)`: `Math.round(MAX_DOT_DIAMETER / diameter)`
with `diameter = radius * 2`. -/
def calculateDotScore (radius : ℚ) : ℤ :=
  jsRound (MAX_DOT_DIAMETER / (radius * 2))

/-- `getRandomNumber_(min, max)`: `Math.floor(Math.random() * (max - min + 1)) + min`,
with the `Math.random()` draw `u` made an explicit argument. -/
def getRandomNumber_ (u minv maxv : ℚ) : ℚ :=
  ((⌊u * (maxv - minv + 1)⌋ : ℤ) : ℚ) + minv

/-- `getRandomRadius_()`: a random diameter between `MIN_DOT_DIAMETER` and
`MAX_DOT_DIAMETER`, halved. -/
def getRandomRadius_ (u : ℚ) : ℚ :=
  (getRandomNumber_ u MIN_DOT_DIAMETER MAX_DOT_DIAMETER) / 2

/-- `getRandomX_(radius)` of the pixel-coordinate variants: a random number
between `radius + STROKE_WIDTH + padding` and
`boardWidth - radius - STROKE_WIDTH - padding`. -/
def getRandomX_ (boardWidth u radius : ℚ) : ℚ :=
  getRandomNumber_ u (radius + STROKE_WIDTH + BOARD_INNER_PADDING)
    (boardWidth - radius - STROKE_WIDTH - BOARD_INNER_PADDING)

/-- `getRandomPercent_()` of the percentage-coordinate variant: a random
number between 0 and 100. -/
def getRandomPercent_ (u : ℚ) : ℚ :=
  getRandomNumber_ u 0 100

/-- `percentToPixel_(dot)` of the percentage-coordinate variant: resolves a
percent `x` to a pixel abscissa inside the padded board. -/
def percentToPixel_ (boardWidth : ℚ) (dot : Dot) : ℚ :=
  let minv := dot.r + STROKE_WIDTH + BOARD_INNER_PADDING
  let maxv := boardWidth - dot.r - STROKE_WIDTH - BOARD_INNER_PADDING
  (maxv - minv) * dot.x / 100 + minv

/-- `addDot_()` of the percentage-coordinate variant (bottom of `index.js`):
random radius, random percent `x`, and `y = -radius - STROKE_WIDTH`. -/
def addDot_ (uR uX : ℚ) : Dot :=
  ⟨getRandomRadius_ uR, getRandomPercent_ uX, -(getRandomRadius_ uR) - STROKE_WIDTH⟩

/-- `addDot_()` of the first variant at the top of `index.js`: random radius,
random absolute-pixel `x`, and `y = -radius` (no stroke allowance). -/
def addDotV1_ (boardWidth uR uX : ℚ) : Dot :=
  ⟨getRandomRadius_ uR, getRandomX_ boardWidth uX (getRandomRadius_ uR),
    -(getRandomRadius_ uR)⟩

/-- The expiry test of `expireDots_`:
`dots_[i].y - dots_[i].r - STROKE_WIDTH > boardHeight_`. -/
def expiredDot (boardHeight : ℚ) (d : Dot) : Bool :=
  decide (boardHeight < d.y - d.r - STROKE_WIDTH)

/-- `expireDots_()`: the do-while loop counts how many leading dots pass the
expiry test and `splice(0, i)` removes exactly that leading run, keeping the
remaining dots in order. -/
def expireDots_ (boardHeight : ℚ) : List Dot → List Dot
  | [] => []
  | d :: ds => if expiredDot boardHeight d then expireDots_ boardHeight ds else d :: ds

/-- Modelled from the spec: the rendering surface's point-in-shape test
(`ctx.isPointInPath`) evaluated against the circle most recently defined by
`drawDot_` — the filled disc of radius `dot.r` centred at the dot's resolved
pixel position `(percentToPixel_(dot), dot.y)`. -/
def isPointInPath (boardWidth px py : ℚ) (dot : Dot) : Bool :=
  decide ((px - percentToPixel_ boardWidth dot) ^ 2 + (py - dot.y) ^ 2 ≤ dot.r ^ 2)

/-- The scan of `scoreTopDot_`: walk the dot array from its end (most
recently spawned) toward its start; on the first dot containing the point,
return the array with exactly that dot spliced out, together with the dot. -/
def removeTopHitAux (hit : Dot → Bool) : List Dot → Option (List Dot × Dot)
  | [] => none
  | d :: ds =>
    match removeTopHitAux hit ds with
    | some (ds1, h) => some (d :: ds1, h)
    | none => if hit d then some (ds, d) else none

/-- `scoreTopDot_(x, y)`: scan from the most recently spawned dot; score and
splice out the first hit, leaving everything else untouched; if no dot
contains the point (`i` reaches `-1`), nothing changes.  The returned integer
is the score contribution passed to `increaseScore_`. -/
def scoreTopDot_ (boardWidth px py : ℚ) (dots : List Dot) : List Dot × ℤ :=
  match removeTopHitAux (isPointInPath boardWidth px py) dots with
  | some (rest, d) => (rest, calculateDotScore d.r)
  | none => (dots, 0)

/-- The per-dot motion of `render_`: `dot.y += dy` with
`dy = speed_ / FRAMES_PER_SECOND`. -/
def moveDot (speed fps : ℚ) (d : Dot) : Dot :=
  ⟨d.r, d.x, d.y + speed / fps⟩

/-- `render_()` restricted to its state effect on the dot array: every dot
falls by `speed / framesPerSecond`, then `expireDots_` runs. -/
def render_ (speed fps boardHeight : ℚ) (dots : List Dot) : List Dot :=
  expireDots_ boardHeight (dots.map (moveDot speed fps))

/-- A character of the whitespace class skipped by JavaScript `parseInt`. -/
def isJsSpace (c : Char) : Bool :=
  c = ' ' || c = '\t' || c = '\n' || c = '\r' || c = '\x0b' || c = '\x0c'

/-- Digit-string value in base 10. -/
def digitsToNat (ds : List Char) : ℕ :=
  ds.foldl (fun n c => 10 * n + (c.toNat - '0'.toNat)) 0

/-- JavaScript `parseInt(s, 10)`: skip leading whitespace, read an optional
sign, then the longest run of decimal digits; the result is `NaN` (here
`none`) when that run is empty. -/
def jsParseInt (s : String) : Option ℤ :=
  let cs := s.data.dropWhile isJsSpace
  match cs with
  | '+' :: t => if (t.takeWhile Char.isDigit).isEmpty then none
      else some (digitsToNat (t.takeWhile Char.isDigit))
  | '-' :: t => if (t.takeWhile Char.isDigit).isEmpty then none
      else some (-(digitsToNat (t.takeWhile Char.isDigit) : ℤ))
  | _ => if (cs.takeWhile Char.isDigit).isEmpty then none
      else some (digitsToNat (cs.takeWhile Char.isDigit))

/-- `setSpeed_()`: `this.speed_ = parseInt(this.speedInput_.value, 10)`.
The stored speed is a JavaScript number; `none` models `NaN`. -/
def setSpeed_ (value : String) : Option ℚ :=
  (jsParseInt value).map (fun n => (n : ℚ))

/-- JavaScript addition on possibly-`NaN` numbers: `NaN` absorbs. -/
def nanAdd (a b : Option ℚ) : Option ℚ :=
  match a, b with
  | some q, some w => some (q + w)
  | _, _ => none

/-- JavaScript division on possibly-`NaN` numbers: `NaN` absorbs (the
denominators used here are nonzero, so the finite case is plain division). -/
def nanDiv (a b : Option ℚ) : Option ℚ :=
  match a, b with
  | some q, some w => some (q / w)
  | _, _ => none

/-! ## Helper lemmas about the score function -/

/-- On positive radii, the score is antitone: a larger dot scores no more. -/
theorem calculateDotScore_anti {r₁ r₂ : ℚ} (h0 : 0 < r₁) (h : r₁ ≤ r₂) :
    calculateDotScore r₂ ≤ calculateDotScore r₁ := by
  unfold calculateDotScore jsRound
  apply Int.floor_mono
  have h2 : (0 : ℚ) < r₁ * 2 := by linarith
  have : MAX_DOT_DIAMETER / (r₂ * 2) ≤ MAX_DOT_DIAMETER / (r₁ * 2) := by
    apply div_le_div_of_nonneg_left _ h2 (by linarith)
    norm_num [MAX_DOT_DIAMETER]
  linarith

/-- Any radius not exceeding `MAX_DOT_DIAMETER / 2` scores at least one
point. -/
theorem one_le_calculateDotScore {r : ℚ} (h0 : 0 < r) (h : r ≤ MAX_DOT_DIAMETER / 2) :
    1 ≤ calculateDotScore r := by
  unfold calculateDotScore jsRound
  rw [Int.le_floor]
  have h2 : (0 : ℚ) < r * 2 := by linarith
  have hle : r * 2 ≤ MAX_DOT_DIAMETER := by
    norm_num [MAX_DOT_DIAMETER] at h ⊢; linarith
  have : (1 : ℚ) ≤ MAX_DOT_DIAMETER / (r * 2) :=
    (one_le_div h2).mpr hle
  push_cast
  linarith

/-! ## C2: the scoring formula -/

/-- C2: for every radius in `[minDiameter/2, maxDiameter/2]`,
`calculateDotScore r` equals `round(maxDiameter / (2 * r))` under the
platform's (JavaScript `Math.round`, half-up) rounding rule; in particular
a radius-50 dot scores 1 and a radius-5 dot scores 10. -/
theorem calculateDotScore_formula (r : ℚ)
    (h1 : MIN_DOT_DIAMETER / 2 ≤ r) (h2 : r ≤ MAX_DOT_DIAMETER / 2) :
    calculateDotScore r = jsRound (MAX_DOT_DIAMETER / (2 * r)) ∧
    calculateDotScore 50 = 1 ∧ calculateDotScore 5 = 10 := by
  refine ⟨by rw [calculateDotScore, mul_comm], ?_, ?_⟩ <;>
    norm_num [calculateDotScore, jsRound, MAX_DOT_DIAMETER]

/-- Witness for C2 at the concrete radius 5. -/
theorem calculateDotScore_formula_witness :
    calculateDotScore 5 = jsRound (MAX_DOT_DIAMETER / (2 * 5)) ∧
    calculateDotScore 50 = 1 ∧ calculateDotScore 5 = 10 :=
  calculateDotScore_formula 5 (by norm_num [MIN_DOT_DIAMETER])
    (by norm_num [MAX_DOT_DIAMETER])

/-! ## C7: the score is non-increasing and positive on the radius range -/

/-- C7: for radii `r₁ ≤ r₂` in `[minDiameter/2, maxDiameter/2]`, the score of
the larger dot never exceeds the score of the smaller, and both scores are
integers at least 1. -/
theorem calculateDotScore_antitone_pos (r₁ r₂ : ℚ)
    (h1 : MIN_DOT_DIAMETER / 2 ≤ r₁) (h12 : r₁ ≤ r₂)
    (h2 : r₂ ≤ MAX_DOT_DIAMETER / 2) :
    calculateDotScore r₂ ≤ calculateDotScore r₁ ∧
    1 ≤ calculateDotScore r₁ ∧ 1 ≤ calculateDotScore r₂ := by
  have h0 : (0 : ℚ) < r₁ := by norm_num [MIN_DOT_DIAMETER] at h1; linarith
  exact ⟨calculateDotScore_anti h0 h12,
    one_le_calculateDotScore h0 (le_trans h12 h2),
    one_le_calculateDotScore (lt_of_lt_of_le h0 h12) h2⟩

/-- Witness for C7 at the concrete radii 5 and 50. -/
theorem calculateDotScore_antitone_pos_witness :
    calculateDotScore 50 ≤ calculateDotScore 5 ∧
    1 ≤ calculateDotScore (5 : ℚ) ∧ 1 ≤ calculateDotScore (50 : ℚ) :=
  calculateDotScore_antitone_pos 5 50 (by norm_num [MIN_DOT_DIAMETER])
    (by norm_num) (by norm_num [MAX_DOT_DIAMETER])

/-! ## C8: strict antitonicity fails; non-strict holds -/

/-- C8 counterexample: the radii 49 and 50 both lie in the range and
`49 < 50`, yet both score exactly 1 — a strictly smaller dot is not always
worth strictly more points. -/
theorem calculateDotScore_strict_counterexample :
    MIN_DOT_DIAMETER / 2 ≤ (49 : ℚ) ∧ (49 : ℚ) < 50 ∧
    (50 : ℚ) ≤ MAX_DOT_DIAMETER / 2 ∧
    calculateDotScore 49 = 1 ∧ calculateDotScore 50 = 1 := by
  norm_num [calculateDotScore, jsRound, MIN_DOT_DIAMETER, MAX_DOT_DIAMETER]

/-- C8 amended: for radii `r₁ < r₂` in `[minDiameter/2, maxDiameter/2]`, a
strictly smaller dot is worth at least as many points as a strictly larger
one (strictness fails, e.g. at radii 49 and 50). -/
theorem calculateDotScore_lt_antitone (r₁ r₂ : ℚ)
    (h1 : MIN_DOT_DIAMETER / 2 ≤ r₁) (h12 : r₁ < r₂)
    (h2 : r₂ ≤ MAX_DOT_DIAMETER / 2) :
    calculateDotScore r₂ ≤ calculateDotScore r₁ := by
  have h0 : (0 : ℚ) < r₁ := by norm_num [MIN_DOT_DIAMETER] at h1; linarith
  exact calculateDotScore_anti h0 (le_of_lt h12)

/-- Witness for the amended C8 at the concrete radii 5 and 50. -/
theorem calculateDotScore_lt_antitone_witness :
    calculateDotScore 50 ≤ calculateDotScore (5 : ℚ) :=
  calculateDotScore_lt_antitone 5 50 (by norm_num [MIN_DOT_DIAMETER])
    (by norm_num) (by norm_num [MAX_DOT_DIAMETER])

/-! ## Helper lemmas about expiry -/

/-- `expireDots_` only ever removes dots; every surviving dot was present. -/
theorem mem_of_mem_expireDots {boardHeight : ℚ} {dots : List Dot} {d : Dot}
    (h : d ∈ expireDots_ boardHeight dots) : d ∈ dots := by
  induction dots with
  | nil => simpa [expireDots_] using h
  | cons d0 ds ih =>
    rw [expireDots_] at h
    by_cases hc : expiredDot boardHeight d0
    · simp only [hc, if_true] at h
      exact List.mem_cons_of_mem d0 (ih h)
    · simpa [hc] using h

/-! ## C1: which dots expire -/

/-- C1 counterexample: with `boardHeight = 600` a dot of radius 50 at
`y = 600` has `y + r + strokeWidth = 651 > 600`, so the claim says
`expireDots` removes it — but the code keeps it (it tests
`y - r - strokeWidth > boardHeight`, which is `549 > 600`, false). -/
theorem expireDots_bottom_edge_counterexample :
    (600 : ℚ) + 50 + STROKE_WIDTH > 600 ∧
    expireDots_ 600 [⟨50, 0, 600⟩] = [⟨50, 0, 600⟩] := by
  constructor
  · norm_num [STROKE_WIDTH]
  · norm_num [expireDots_, expiredDot, STROKE_WIDTH]

/-- C1 amended: `expireDots_` removes a dot only if, at the time of the
call, its trailing (top) edge has passed the bottom of the board,
`y - r - strokeWidth > boardHeight`; a dot with
`y - r - strokeWidth ≤ boardHeight` is never removed. -/
theorem expireDots_trailing_edge (boardHeight : ℚ) (dots : List Dot) (d : Dot)
    (hm : d ∈ dots) :
    (d.y - d.r - STROKE_WIDTH ≤ boardHeight →
      d ∈ expireDots_ boardHeight dots) ∧
    (d ∉ expireDots_ boardHeight dots →
      boardHeight < d.y - d.r - STROKE_WIDTH) := by
  have key : d.y - d.r - STROKE_WIDTH ≤ boardHeight →
      d ∈ expireDots_ boardHeight dots := by
    intro hc
    induction dots with
    | nil => cases hm
    | cons d0 ds ih =>
      rw [expireDots_]
      by_cases h0 : expiredDot boardHeight d0
      · simp only [h0, if_true]
        rcases List.mem_cons.mp hm with rfl | hds
        · exact absurd (of_decide_eq_true h0) (not_lt.mpr hc)
        · exact ih hds
      · simp only [h0, if_false]
        exact hm
  refine ⟨key, fun hnot => ?_⟩
  by_contra hc
  exact hnot (key (not_lt.mp hc))

/-- Witness for the amended C1: a dot whose trailing edge has not passed the
board bottom survives the call. -/
theorem expireDots_trailing_edge_witness :
    (⟨50, 0, 600⟩ : Dot) ∈ expireDots_ 600 [⟨50, 0, 600⟩] :=
  (expireDots_trailing_edge 600 [⟨50, 0, 600⟩] ⟨50, 0, 600⟩
    (List.mem_singleton.mpr rfl)).1 (by norm_num [STROKE_WIDTH])

/-! ## C10: expiry removes exactly the leading expired run -/

/-- C10: `expireDots_` splits `liveDots` into a leading run of dots all
passing the expiry test, which it removes, followed by a suffix it returns
unchanged (preserving relative order) whose first dot — if any — fails the
test; so a dot passing the test is retained whenever an earlier dot fails
it. -/
theorem expireDots_removes_expired_run (boardHeight : ℚ) (dots : List Dot) :
    ∃ p s, dots = p ++ s ∧ expireDots_ boardHeight dots = s ∧
      (∀ d ∈ p, expiredDot boardHeight d = true) ∧
      (∀ d, s.head? = some d → expiredDot boardHeight d = false) := by
  induction dots with
  | nil => exact ⟨[], [], rfl, rfl, by simp, by simp⟩
  | cons d0 ds ih =>
    by_cases h0 : expiredDot boardHeight d0
    · obtain ⟨p, s, hsplit, hrun, hall, hhead⟩ := ih
      refine ⟨d0 :: p, s, by rw [hsplit]; rfl, ?_, ?_, hhead⟩
      · rw [expireDots_, if_pos h0]; exact hrun
      · intro d hd
        rcases List.mem_cons.mp hd with rfl | hp
        · exact h0
        · exact hall d hp
    · refine ⟨[], d0 :: ds, rfl, ?_, by simp, ?_⟩
      · rw [expireDots_, if_neg h0]
      · intro d hd
        simp only [List.head?_cons, Option.some.injEq] at hd
        rw [← hd]
        exact Bool.eq_false_iff.mpr h0

/-- Witness for C10 on a concrete two-dot state: the expired first dot is
removed and the unexpired second dot is kept. -/
theorem expireDots_removes_expired_run_witness :
    ∃ p s, ([⟨50, 0, 700⟩, ⟨5, 20, 100⟩] : List Dot) = p ++ s ∧
      expireDots_ 600 [⟨50, 0, 700⟩, ⟨5, 20, 100⟩] = s ∧
      (∀ d ∈ p, expiredDot 600 d = true) ∧
      (∀ d, s.head? = some d → expiredDot 600 d = false) :=
  expireDots_removes_expired_run 600 [⟨50, 0, 700⟩, ⟨5, 20, 100⟩]

/-! ## Helper lemmas about the top-dot scan -/

/-- When no dot is hit, the scan of `scoreTopDot_` finds nothing. -/
theorem removeTopHitAux_eq_none {hit : Dot → Bool} {l : List Dot}
    (h : ∀ d ∈ l, hit d = false) : removeTopHitAux hit l = none := by
  induction l with
  | nil => rfl
  | cons d0 ds ih =>
    have hrec : removeTopHitAux hit ds = none :=
      ih fun d hd => h d (List.mem_cons_of_mem d0 hd)
    simp [removeTopHitAux, hrec, h d0 (List.mem_cons_self d0 ds)]

/-- When `d` is hit and nothing after it is, the scan of `scoreTopDot_`
returns `d` and splices exactly `d` out. -/
theorem removeTopHitAux_eq_some {hit : Dot → Bool} (l₁ l₂ : List Dot) (d : Dot)
    (hd : hit d = true) (h₂ : ∀ d' ∈ l₂, hit d' = false) :
    removeTopHitAux hit (l₁ ++ d :: l₂) = some (l₁ ++ l₂, d) := by
  induction l₁ with
  | nil =>
    have hrec : removeTopHitAux hit l₂ = none := removeTopHitAux_eq_none h₂
    simp [removeTopHitAux, hrec, hd]
  | cons a l ih =>
    simp [removeTopHitAux, ih]

/-! ## C3: at most one dot scored per pointer event -/

/-- C3: with `propagateHits = false` a pointer event at `(px, py)` scores at
most one dot.  If no dot's drawn circle contains the point, `liveDots` and
the score are unchanged; if `d` is the most recently spawned containing dot
(no dot spawned after it contains the point), exactly `d` is removed and
scored, and all other dots survive in order. -/
theorem scoreTopDot_single_hit (boardWidth px py : ℚ) (dots : List Dot) :
    ((∀ d ∈ dots, isPointInPath boardWidth px py d = false) →
      scoreTopDot_ boardWidth px py dots = (dots, 0)) ∧
    (∀ (l₁ l₂ : List Dot) (d : Dot), dots = l₁ ++ d :: l₂ →
      isPointInPath boardWidth px py d = true →
      (∀ d' ∈ l₂, isPointInPath boardWidth px py d' = false) →
      scoreTopDot_ boardWidth px py dots = (l₁ ++ l₂, calculateDotScore d.r)) := by
  constructor
  · intro hnone
    rw [scoreTopDot_, removeTopHitAux_eq_none hnone]
  · intro l₁ l₂ d hsplit hd h₂
    rw [scoreTopDot_, hsplit, removeTopHitAux_eq_some l₁ l₂ d hd h₂]

/-- Witness for C3: a pointer event at the centre of the only dot removes
that dot and adds its score. -/
theorem scoreTopDot_single_hit_witness :
    scoreTopDot_ 400 200 10 [⟨5, 50, 10⟩] =
      ([], calculateDotScore (⟨5, 50, 10⟩ : Dot).r) :=
  (scoreTopDot_single_hit 400 200 10 [⟨5, 50, 10⟩]).2 [] [] ⟨5, 50, 10⟩ rfl
    (by norm_num [isPointInPath, percentToPixel_, STROKE_WIDTH,
      BOARD_INNER_PADDING])
    (by simp)

/-! ## C4: linear vertical motion across ticks -/

/-- C4: after `N` ticks at constant speed `s` and frame rate `f` with no
pointer events, every surviving dot is an original dot moved down by exactly
`N * s / f` pixels, with its radius and horizontal position unchanged. -/
theorem render_linear_motion (speed fps boardHeight : ℚ) (N : ℕ)
    (dots : List Dot) (d' : Dot)
    (h : d' ∈ (render_ speed fps boardHeight)^[N] dots) :
    ∃ d ∈ dots, d'.r = d.r ∧ d'.x = d.x ∧ d'.y = d.y + N * speed / fps := by
  induction N generalizing dots with
  | zero =>
    exact ⟨d', by simpa using h, rfl, rfl, by simp⟩
  | succ n ih =>
    rw [Function.iterate_succ_apply] at h
    obtain ⟨dm, hdm, hr, hx, hy⟩ := ih (render_ speed fps boardHeight dots) h
    have hdm' : dm ∈ dots.map (moveDot speed fps) := mem_of_mem_expireDots hdm
    obtain ⟨d0, hd0, hmove⟩ := List.mem_map.mp hdm'
    refine ⟨d0, hd0, ?_, ?_, ?_⟩
    · rw [hr, ← hmove]; rfl
    · rw [hx, ← hmove]; rfl
    · rw [hy, ← hmove]
      show d0.y + speed / fps + ↑n * speed / fps = d0.y + ↑(n + 1) * speed / fps
      push_cast
      ring

/-- Witness for C4: one tick at speed 60 and 60 fps moves the dot spawned at
`y = -51` down by exactly one pixel. -/
theorem render_linear_motion_witness :
    ∃ d ∈ [(⟨50, 0, -51⟩ : Dot)], (⟨50, 0, -50⟩ : Dot).r = d.r ∧
      (⟨50, 0, -50⟩ : Dot).x = d.x ∧
      (⟨50, 0, -50⟩ : Dot).y = d.y + ((1 : ℕ) : ℚ) * 60 / 60 :=
  render_linear_motion 60 60 600 1 [⟨50, 0, -51⟩] ⟨50, 0, -50⟩
    (by norm_num [Function.iterate_one, render_, moveDot, expireDots_,
      expiredDot, STROKE_WIDTH])

/-! ## C5: non-numeric speed input -/

/-- C5: the speed handler stores `parseInt(value, 10)` with no fallback, so a
non-numeric input (for instance a cleared input box, value `""`, or `"abc"`)
stores `NaN` — not 0 — and the next tick's displacement
`dy = speed / framesPerSecond` is `NaN`, which overwrites every dot's `y`
with `NaN` instead of leaving it unchanged. -/
theorem setSpeed_nonnumeric_nan :
    setSpeed_ "" = none ∧ setSpeed_ "abc" = none ∧
    ∀ y : ℚ, nanAdd (some y)
      (nanDiv (setSpeed_ "abc") (some FRAMES_PER_SECOND)) = none :=
  ⟨by decide, by decide, fun y => rfl⟩

/-! ## C6: spawn height -/

/-- C6 counterexample: the first variant's `addDot_` (top of `index.js`)
spawns with `y = -radius`, not `y = -radius - strokeWidth`; with the random
draws at 0 the dot has radius 5 and `y = -5 ≠ -6`, and its bottom edge
including the stroke, `y + r + strokeWidth = 1`, is below the top of the
visible area. -/
theorem addDotV1_spawn_y_counterexample :
    (addDotV1_ 400 0 0).y = -5 ∧
    -(addDotV1_ 400 0 0).r - STROKE_WIDTH = -6 ∧
    (addDotV1_ 400 0 0).y + (addDotV1_ 400 0 0).r + STROKE_WIDTH > 0 := by
  norm_num [addDotV1_, getRandomRadius_, getRandomNumber_, getRandomX_,
    MIN_DOT_DIAMETER, MAX_DOT_DIAMETER, STROKE_WIDTH, BOARD_INNER_PADDING]

/-- C6 amended: dots spawned by the percentage-variant `addDot_` (bottom of
`index.js`, and likewise `part_000`) start at `y = -radius - strokeWidth`,
so their bottom edge including the stroke is exactly at the top of the
visible area; dots spawned by the first variant's `addDot_` start at
`y = -radius`, leaving the stroke extending `strokeWidth` below the top
edge. -/
theorem addDot_spawn_y (uR uX boardWidth : ℚ) :
    (addDot_ uR uX).y = -(addDot_ uR uX).r - STROKE_WIDTH ∧
    (addDot_ uR uX).y + (addDot_ uR uX).r + STROKE_WIDTH = 0 ∧
    (addDotV1_ boardWidth uR uX).y = -(addDotV1_ boardWidth uR uX).r := by
  refine ⟨rfl, ?_, rfl⟩
  show -(getRandomRadius_ uR) - STROKE_WIDTH + getRandomRadius_ uR +
    STROKE_WIDTH = 0
  ring

/-! ## Helper lemmas for the random placement bounds -/

/-- The random draw of `getRandomNumber_` lands in `[min, max + 1)`. -/
theorem getRandomNumber_mem {u minv maxv : ℚ} (h0 : 0 ≤ u) (h1 : u < 1)
    (hL : 0 < maxv - minv + 1) :
    minv ≤ getRandomNumber_ u minv maxv ∧
    getRandomNumber_ u minv maxv < maxv + 1 := by
  unfold getRandomNumber_
  constructor
  · have hk : (0 : ℚ) ≤ ((⌊u * (maxv - minv + 1)⌋ : ℤ) : ℚ) := by
      exact_mod_cast Int.floor_nonneg.mpr (mul_nonneg h0 (le_of_lt hL))
    linarith
  · have hle : ((⌊u * (maxv - minv + 1)⌋ : ℤ) : ℚ) ≤ u * (maxv - minv + 1) :=
      Int.floor_le _
    have hlt : u * (maxv - minv + 1) < 1 * (maxv - minv + 1) :=
      mul_lt_mul_of_pos_right h1 hL
    linarith

/-- `getRandomPercent_` lands in `[0, 100]` (integrality of the floor gives
the inclusive upper bound). -/
theorem getRandomPercent_mem {u : ℚ} (h0 : 0 ≤ u) (h1 : u < 1) :
    0 ≤ getRandomPercent_ u ∧ getRandomPercent_ u ≤ 100 := by
  unfold getRandomPercent_ getRandomNumber_
  norm_num
  constructor
  · exact_mod_cast Int.floor_nonneg.mpr (mul_nonneg h0 (by norm_num))
  · have hle : ((⌊u * 101⌋ : ℤ) : ℚ) ≤ u * 101 := Int.floor_le _
    have hlt : u * 101 < 101 := by linarith
    have hz : (⌊u * 101⌋ : ℤ) < 101 := by exact_mod_cast lt_of_le_of_lt hle hlt
    have hz' : (⌊u * 101⌋ : ℤ) ≤ 100 := by omega
    exact_mod_cast hz'

/-- Horizontal bounds for the pixel-coordinate `getRandomX_`. -/
theorem getRandomX_extent {boardWidth u r : ℚ} (h0 : 0 ≤ u) (h1 : u < 1)
    (hbw : 2 * r + 2 * STROKE_WIDTH + 2 * BOARD_INNER_PADDING ≤ boardWidth) :
    0 ≤ getRandomX_ boardWidth u r - r - STROKE_WIDTH ∧
    getRandomX_ boardWidth u r + r + STROKE_WIDTH ≤ boardWidth := by
  have hL : 0 < (boardWidth - r - STROKE_WIDTH - BOARD_INNER_PADDING) -
      (r + STROKE_WIDTH + BOARD_INNER_PADDING) + 1 := by
    norm_num [STROKE_WIDTH, BOARD_INNER_PADDING] at hbw ⊢
    linarith
  obtain ⟨hlo, hhi⟩ := getRandomNumber_mem h0 h1 hL
  unfold getRandomX_
  norm_num [STROKE_WIDTH, BOARD_INNER_PADDING] at hlo hhi hbw ⊢
  constructor <;> linarith

/-- Horizontal bounds for the percentage-coordinate resolution
`percentToPixel_` on a freshly drawn percent. -/
theorem percentToPixel_extent {boardWidth u : ℚ} (d : Dot) (h0 : 0 ≤ u)
    (h1 : u < 1) (hx : d.x = getRandomPercent_ u)
    (hbw : 2 * d.r + 2 * STROKE_WIDTH + 2 * BOARD_INNER_PADDING ≤ boardWidth) :
    0 ≤ percentToPixel_ boardWidth d - d.r - STROKE_WIDTH ∧
    percentToPixel_ boardWidth d + d.r + STROKE_WIDTH ≤ boardWidth := by
  obtain ⟨hp0, hp100⟩ := getRandomPercent_mem h0 h1
  rw [← hx] at hp0 hp100
  have hD : 0 ≤ boardWidth - 2 * d.r - 2 * STROKE_WIDTH -
      2 * BOARD_INNER_PADDING := by linarith
  have ht0 : 0 ≤ (boardWidth - 2 * d.r - 2 * STROKE_WIDTH -
      2 * BOARD_INNER_PADDING) * d.x := mul_nonneg hD hp0
  have ht100 : (boardWidth - 2 * d.r - 2 * STROKE_WIDTH -
      2 * BOARD_INNER_PADDING) * d.x ≤
      (boardWidth - 2 * d.r - 2 * STROKE_WIDTH - 2 * BOARD_INNER_PADDING) *
        100 := mul_le_mul_of_nonneg_left hp100 hD
  simp only [percentToPixel_]
  norm_num [STROKE_WIDTH, BOARD_INNER_PADDING] at ht0 ht100 ⊢
  constructor <;> linarith

/-! ## C9: a fresh dot's horizontal extent stays on the board -/

/-- C9: when the board is wide enough for the dot
(`boardWidth ≥ 2·radius + 2·strokeWidth + 2·padding`), a freshly spawned
dot's resolved horizontal extent `[x - r - strokeWidth, x + r + strokeWidth]`
lies within `[0, boardWidth]` for every value of the random draws — both for
the pixel-coordinate variant's `getRandomX_` placement and for the
percentage variant's `percentToPixel_` resolution. -/
theorem spawn_horizontal_bounds (boardWidth uR uX : ℚ)
    (h0X : 0 ≤ uX) (h1X : uX < 1)
    (hbw : 2 * getRandomRadius_ uR + 2 * STROKE_WIDTH +
      2 * BOARD_INNER_PADDING ≤ boardWidth) :
    (0 ≤ (addDotV1_ boardWidth uR uX).x - (addDotV1_ boardWidth uR uX).r -
        STROKE_WIDTH ∧
      (addDotV1_ boardWidth uR uX).x + (addDotV1_ boardWidth uR uX).r +
        STROKE_WIDTH ≤ boardWidth) ∧
    (0 ≤ percentToPixel_ boardWidth (addDot_ uR uX) - (addDot_ uR uX).r -
        STROKE_WIDTH ∧
      percentToPixel_ boardWidth (addDot_ uR uX) + (addDot_ uR uX).r +
        STROKE_WIDTH ≤ boardWidth) := by
  constructor
  · exact getRandomX_extent h0X h1X hbw
  · exact percentToPixel_extent (addDot_ uR uX) h0X h1X rfl hbw

/-- Witness for C9 on a 400-wide board with both draws at 0. -/
theorem spawn_horizontal_bounds_witness :
    (0 ≤ (addDotV1_ 400 0 0).x - (addDotV1_ 400 0 0).r - STROKE_WIDTH ∧
      (addDotV1_ 400 0 0).x + (addDotV1_ 400 0 0).r + STROKE_WIDTH ≤ 400) ∧
    (0 ≤ percentToPixel_ 400 (addDot_ 0 0) - (addDot_ 0 0).r - STROKE_WIDTH ∧
      percentToPixel_ 400 (addDot_ 0 0) + (addDot_ 0 0).r + STROKE_WIDTH
        ≤ 400) :=
  spawn_horizontal_bounds 400 0 0 (by norm_num) (by norm_num)
    (by norm_num [getRandomRadius_, getRandomNumber_, MIN_DOT_DIAMETER,
      MAX_DOT_DIAMETER, STROKE_WIDTH, BOARD_INNER_PADDING])

end DotGame
